import Mathlib

/-!
Verification of the SMARTCLI terminal assistant against its specification.

The development shallowly embeds the query/response/execute control loop of
the repository: the JSON extraction from free-form model replies
(`extract_command_and_response` in `smartcli/scli.py`, `parse_llm_json` in
`2Smartcli/main.py`), the token-budget bookkeeping, the allow-list command
validator, the confirmation/execution gates, and the per-turn control flow of
the two main loops.  External collaborators (the LLM transport, the shell,
the human at the keyboard) are passed in as oracle functions, matching the
spec's collaborator contracts.
-/

namespace SmartCLI

/-! ## Characters and small helpers

Brace characters are named constants (123 = left curly brace, 125 = right
curly brace). -/

def lbrace : Char := Char.ofNat 123

def rbrace : Char := Char.ofNat 125

/-- The whitespace characters skipped by Python's `json` scanner
(space, tab, newline, carriage return). -/
def isJsonWs (c : Char) : Bool :=
  c = ' ' || c = '\t' || c = '\n' || c = '\r'

/-- Drop leading JSON whitespace. -/
def skipWs : List Char → List Char
  | [] => []
  | c :: cs => if isJsonWs c then skipWs cs else c :: cs

/-! ### Python string primitives

`.strip()`, `.lower()`, `.startswith()` and `.split()` are modelled over the
character list (ASCII case folding; the characters Python's `str.strip` and
`str.split` treat as whitespace, restricted to the ASCII range). -/

def pyIsSpace (c : Char) : Bool :=
  c = ' ' || c = '\t' || c = '\n' || c = '\r' || c = Char.ofNat 11 || c = Char.ofNat 12

def pyStripList (cs : List Char) : List Char :=
  ((cs.dropWhile pyIsSpace).reverse.dropWhile pyIsSpace).reverse

/-- `s.strip()`. -/
def pyStrip (s : String) : String :=
  String.mk (pyStripList s.data)

def pyLowerChar (c : Char) : Char :=
  if 'A' ≤ c ∧ c ≤ 'Z' then Char.ofNat (c.toNat + 32) else c

/-- `s.lower()`. -/
def pyLower (s : String) : String :=
  String.mk (s.data.map pyLowerChar)

/-- `s.startswith(t)`. -/
def pyStartsWith (s t : String) : Bool :=
  t.data.isPrefixOf s.data

/-- `len(s.split())`: count of maximal runs of non-whitespace characters. -/
def wordsAux : List Char → Bool → Nat
  | [], _ => 0
  | c :: cs, inWord =>
    if pyIsSpace c then wordsAux cs false
    else if inWord then wordsAux cs true
    else 1 + wordsAux cs true

def wordCount (s : String) : Nat :=
  wordsAux s.data false

/-! ## JSON values

Model of the Python objects produced by `json.loads`.  Numbers keep their
source lexeme: no claim depends on numeric arithmetic, only on decodability
and truthiness, and the lexeme determines both. -/

inductive Json where
  | str (s : String)
  | boolean (b : Bool)
  | null
  | num (lexeme : String)
  | arr (elems : List Json)
  | obj (fields : List (String × Json))

/-- Python `dict` lookup for an object decoded from JSON text: a duplicated
key keeps the value of its last occurrence. -/
def objLookup (fields : List (String × Json)) (k : String) : Option Json :=
  match fields with
  | [] => none
  | (k0, v) :: rest =>
    match objLookup rest k with
    | some v2 => some v2
    | none => if k0 = k then some v else none

/-! ## The JSON parser (model of `json.loads`)

Recursive descent with an explicit fuel argument; `json_loads` supplies
enough fuel for any input, so fuel exhaustion never occurs on reachable
calls. -/

/-- Hex digit value, for `\uXXXX` escapes. -/
def hexDigitVal (c : Char) : Option Nat :=
  if '0' ≤ c ∧ c ≤ '9' then some (c.toNat - '0'.toNat)
  else if 'a' ≤ c ∧ c ≤ 'f' then some (c.toNat - 'a'.toNat + 10)
  else if 'A' ≤ c ∧ c ≤ 'F' then some (c.toNat - 'A'.toNat + 10)
  else none

def escapeChar (c : Char) : Option Char :=
  if c = '"' then some '"'
  else if c = '\\' then some '\\'
  else if c = '/' then some '/'
  else if c = 'n' then some '\n'
  else if c = 't' then some '\t'
  else if c = 'r' then some '\r'
  else if c = 'b' then some (Char.ofNat 8)
  else if c = 'f' then some (Char.ofNat 12)
  else none

/-- Body of a JSON string, after the opening quote: returns the decoded
content and the input remaining after the closing quote.  Unescaped control
characters are rejected, as in Python's strict mode. -/
def parseStringBody : Nat → List Char → Option (List Char × List Char)
  | 0, _ => none
  | fuel + 1, cs =>
    match cs with
    | [] => none
    | c :: rest =>
      if c = '"' then some ([], rest)
      else if c = '\\' then
        match rest with
        | [] => none
        | e :: rest2 =>
          if e = 'u' then
            match rest2 with
            | a :: b :: c2 :: d :: rest3 =>
              match hexDigitVal a, hexDigitVal b, hexDigitVal c2, hexDigitVal d with
              | some ha, some hb, some hc, some hd =>
                let code := ((ha * 16 + hb) * 16 + hc) * 16 + hd
                if code.isValidChar then
                  match parseStringBody fuel rest3 with
                  | some (content, r) => some (Char.ofNat code :: content, r)
                  | none => none
                else none
              | _, _, _, _ => none
            | _ => none
          else
            match escapeChar e with
            | some ec =>
              match parseStringBody fuel rest2 with
              | some (content, r) => some (ec :: content, r)
              | none => none
            | none => none
      else if c.toNat < 32 then none
      else
        match parseStringBody fuel rest with
        | some (content, r) => some (c :: content, r)
        | none => none

/-- Literal match: `expectChars token rest` consumes `token` from `rest`. -/
def expectChars : List Char → List Char → Option (List Char)
  | [], cs => some cs
  | t :: ts, c :: cs => if c = t then expectChars ts cs else none
  | _ :: _, [] => none

/-- One-or-more decimal digits, as a span. -/
def takeDigits (cs : List Char) : List Char × List Char :=
  (cs.takeWhile Char.isDigit, cs.dropWhile Char.isDigit)

/-- The JSON number grammar (`-?(0|[1-9][0-9]*)(.[0-9]+)?([eE][+-]?[0-9]+)?`),
returning the lexeme and the rest.  `Infinity`, `-Infinity` and `NaN` are
handled by the caller, as Python accepts them by default. -/
def parseNumberLexeme (cs : List Char) : Option (List Char × List Char) :=
  let (sgn, cs1) :=
    match cs with
    | c :: r => if c = '-' then ([c], r) else (([] : List Char), cs)
    | [] => ([], cs)
  match cs1 with
  | [] => none
  | c :: r =>
    if ¬ c.isDigit then none
    else
      let (intPart, afterInt) :=
        if c = '0' then ([c], r)
        else takeDigits (c :: r)
      let (fracPart, afterFrac) :=
        match afterInt with
        | p :: r2 =>
          if p = '.' then
            let (ds, r3) := takeDigits r2
            if ds = [] then ([('!' : Char)], r2) else (p :: ds, r3)
          else ([], afterInt)
        | [] => ([], afterInt)
      if fracPart = [('!' : Char)] then none
      else
        let (expPart, afterExp) :=
          match afterFrac with
          | p :: r2 =>
            if p = 'e' ∨ p = 'E' then
              let (es, r3) :=
                match r2 with
                | s :: r4 => if s = '+' ∨ s = '-' then ([s], r4) else ([], r2)
                | [] => ([], r2)
              let (ds, r5) := takeDigits r3
              if ds = [] then ([('!' : Char)], r2) else (p :: es ++ ds, r5)
            else ([], afterFrac)
          | [] => ([], afterFrac)
        if expPart = [('!' : Char)] then none
        else some (sgn ++ intPart ++ fracPart ++ expPart, afterExp)

mutual

/-- Parse one JSON value (after skipping leading whitespace); returns the
value and the unconsumed rest. -/
def parseVal : Nat → List Char → Option (Json × List Char)
  | 0, _ => none
  | fuel + 1, cs =>
    match skipWs cs with
    | [] => none
    | c :: rest =>
      if c = '"' then
        match parseStringBody (rest.length + 1) rest with
        | some (content, r) => some (.str (String.mk content), r)
        | none => none
      else if c = lbrace then
        match skipWs rest with
        | [] => none
        | d :: r2 =>
          if d = rbrace then some (.obj [], r2)
          else
            match parseMembers fuel (d :: r2) with
            | some (ms, r3) => some (.obj ms, r3)
            | none => none
      else if c = '[' then
        match skipWs rest with
        | [] => none
        | d :: r2 =>
          if d = ']' then some (.arr [], r2)
          else
            match parseElements fuel (d :: r2) with
            | some (es, r3) => some (.arr es, r3)
            | none => none
      else if c = 't' then
        match expectChars ['r', 'u', 'e'] rest with
        | some r => some (.boolean true, r)
        | none => none
      else if c = 'f' then
        match expectChars ['a', 'l', 's', 'e'] rest with
        | some r => some (.boolean false, r)
        | none => none
      else if c = 'n' then
        match expectChars ['u', 'l', 'l'] rest with
        | some r => some (.null, r)
        | none => none
      else if c = 'N' then
        match expectChars ['a', 'N'] rest with
        | some r => some (.num "NaN", r)
        | none => none
      else if c = 'I' then
        match expectChars ['n', 'f', 'i', 'n', 'i', 't', 'y'] rest with
        | some r => some (.num "Infinity", r)
        | none => none
      else if c = '-' ∧ rest.head? = some 'I' then
        match expectChars ['I', 'n', 'f', 'i', 'n', 'i', 't', 'y'] rest with
        | some r => some (.num "-Infinity", r)
        | none => none
      else
        match parseNumberLexeme (c :: rest) with
        | some (lex, r) => some (.num (String.mk lex), r)
        | none => none

/-- Members of a JSON object, starting at the first key's quote; consumes the
closing brace. -/
def parseMembers : Nat → List Char → Option (List (String × Json) × List Char)
  | 0, _ => none
  | fuel + 1, cs =>
    match skipWs cs with
    | [] => none
    | q :: r1 =>
      if q = '"' then
        match parseStringBody (r1.length + 1) r1 with
        | some (key, r2) =>
          match skipWs r2 with
          | [] => none
          | sep :: r3 =>
            if sep = ':' then
              match parseVal fuel r3 with
              | some (v, r4) =>
                match skipWs r4 with
                | [] => none
                | sep2 :: r5 =>
                  if sep2 = ',' then
                    match parseMembers fuel r5 with
                    | some (ms, r6) => some ((String.mk key, v) :: ms, r6)
                    | none => none
                  else if sep2 = rbrace then some ([(String.mk key, v)], r5)
                  else none
              | none => none
            else none
        | none => none
      else none

/-- Elements of a JSON array, starting at the first element; consumes the
closing bracket. -/
def parseElements : Nat → List Char → Option (List Json × List Char)
  | 0, _ => none
  | fuel + 1, cs =>
    match parseVal fuel cs with
    | some (v, r1) =>
      match skipWs r1 with
      | [] => none
      | sep :: r2 =>
        if sep = ',' then
          match parseElements fuel r2 with
          | some (es, r3) => some (v :: es, r3)
          | none => none
        else if sep = ']' then some ([v], r2)
        else none
    | none => none

end

/-- Model of Python's `json.loads`: decode the whole string (modulo
surrounding whitespace) or fail — a `none` result stands for
`json.JSONDecodeError`. -/
def json_loads (s : String) : Option Json :=
  match parseVal (2 * s.length + 4) s.data with
  | some (v, rest) => if skipWs rest = [] then some v else none
  | none => none

/-! ## The brace regex (model of Python's greedy search)

Both parsers run `re.search` with the DOTALL pattern "backslash-lbrace,
dot-star, backslash-rbrace".  With a greedy dot-star this matches the span
from the *first* left brace to the *last* right brace of the whole text
(provided the latter comes after the former), and fails otherwise. -/

def firstIdxOf (c : Char) : List Char → Option Nat
  | [] => none
  | d :: cs => if d = c then some 0 else (firstIdxOf c cs).map (· + 1)

def lastIdxOf (c : Char) (cs : List Char) : Option Nat :=
  match firstIdxOf c cs.reverse with
  | some i => some (cs.length - 1 - i)
  | none => none

/-- `re.search` of the greedy DOTALL brace pattern: the matched text, if any. -/
def re_search_brace_dotall (s : String) : Option String :=
  let cs := s.data
  match firstIdxOf lbrace cs, lastIdxOf rbrace cs with
  | some i, some j =>
    if i < j then some (String.mk ((cs.drop i).take (j + 1 - i))) else none
  | _, _ => none

/-! ## The two response parsers -/

/-- A field read as `parsed.get(k, "")` followed by `.strip()`:
missing defaults to the empty string, a present non-string value makes the
whole call raise `AttributeError` (modelled as `none`, which the enclosing
`except` turns into the no-command result). -/
def getStrFieldOrEmpty (fields : List (String × Json)) (k : String) : Option String :=
  match objLookup fields k with
  | none => some ""
  | some (Json.str s) => some s
  | some _ => none

/-- `extract_command_and_response` from `smartcli/scli.py`: regex-extract the
brace span, `json.loads` it, return `(command.strip(), response.strip())`.
Every failure path returns `None, None`, modelled as `none`. -/
def extract_command_and_response (llm_output : String) : Option (String × String) :=
  match re_search_brace_dotall llm_output with
  | none => none
  | some m =>
    match json_loads m with
    | some (Json.obj fields) =>
      match getStrFieldOrEmpty fields "command", getStrFieldOrEmpty fields "response" with
      | some c, some r => some (pyStrip c, pyStrip r)
      | _, _ => none
    | some _ => none
    | none => none

/-- `CLIAssistant.parse_llm_json` from `2Smartcli/main.py`: regex-extract the
brace span and `json.loads` it; no match or a decode error yields `None`. -/
def parse_llm_json (output : String) : Option Json :=
  match re_search_brace_dotall output with
  | none => none
  | some m => json_loads m

/-! ## Conversation history and token estimation -/

structure Msg where
  role : String
  content : String

/-- `get_total_tokens`: summed word counts over the history
(`sum(len(m["content"].split()) for m in history)`). -/
def get_total_tokens (history : List Msg) : Nat :=
  (history.map (fun m => wordCount m.content)).sum

/-- The budget `max_tokens = 3500`. -/
def max_tokens : Nat := 3500

/-! ## The command validator (`CLIAssistant.validate_command`) -/

/-- The hard-coded allow-list of `2Smartcli/main.py`. -/
def allowed_commands : List String := ["aws", "kubectl", "docker", "ls", "cat"]

/-- The validator's test, generalized over the allow-list exactly as the
source computes it: `any(cmd.startswith(allowed) for allowed in allowList)`. -/
def isAllowed (cmd : String) (allowList : List String) : Bool :=
  allowList.any (fun allowed => pyStartsWith cmd allowed)

/-- `CLIAssistant.validate_command`: the same test over the hard-coded list. -/
def validate_command (cmd : String) : Bool :=
  isAllowed cmd allowed_commands

/-- First whitespace-delimited token of a command (used only to state what
the validator does *not* check). -/
def firstTokenAux : List Char → List Char
  | [] => []
  | c :: cs =>
    if pyIsSpace c then firstTokenAux cs
    else c :: cs.takeWhile (fun d => ¬ pyIsSpace d)

def firstToken (s : String) : String :=
  String.mk (firstTokenAux s.data)

/-! ## Python truthiness

`parsed.get("needs_output")` and `parsed.get("command")` are tested with
Python truthiness over whatever JSON value is present. -/

/-- A JSON number lexeme denotes zero iff its mantissa has digits and they
are all `0` (so `NaN`/`Infinity` are truthy, `-0.0e5` is falsy). -/
def numLexemeIsZero (lex : String) : Bool :=
  let mantissa := lex.data.takeWhile (fun ch => ch ≠ 'e' ∧ ch ≠ 'E')
  mantissa.any Char.isDigit && mantissa.all (fun ch => !ch.isDigit || ch = '0')

def pyTruthy : Option Json → Bool
  | none => false
  | some Json.null => false
  | some (Json.boolean b) => b
  | some (Json.str s) => s ≠ ""
  | some (Json.num lex) => !numLexemeIsZero lex
  | some (Json.arr l) => !l.isEmpty
  | some (Json.obj l) => !l.isEmpty

/-! ## Shell execution (`execute_command` / `run_shell_command`)

The host shell is an oracle: for each command it either completes with
captured stdout, stderr and an exit code, or fails to launch with an error
message (the raised `OSError`-style exception's text). -/

inductive ShellOutcome where
  | completed (stdout stderr : String) (exitCode : Int)
  | launchError (msg : String)

/-- `execute_command` from `smartcli/scli.py`: `subprocess.run(cmd,
shell=True, capture_output=True, check=False)`; returns
`(stdout.strip(), stderr.strip())`, and on a launch exception
`("", str(e))`.  `check=False` means a non-zero exit never raises. -/
def execute_command (shell : String → ShellOutcome) (cmd : String) : String × String :=
  match shell cmd with
  | ShellOutcome.completed out err _ => (pyStrip out, pyStrip err)
  | ShellOutcome.launchError e => ("", e)

/-- `CLIAssistant.run_shell_command` from `2Smartcli/main.py`:
`subprocess.run(cmd, shell=False, capture_output=True, check=True)`;
`check=True` raises on a non-zero exit, which the handler maps to `None`,
as it does any launch exception; success returns `stdout.strip()`. -/
def run_shell_command (shell : String → ShellOutcome) (cmd : String) : Option String :=
  match shell cmd with
  | ShellOutcome.completed out _ code => if code = 0 then some (pyStrip out) else none
  | ShellOutcome.launchError _ => none

/-! ## The scli main-loop dispatch (`main` in `smartcli/scli.py`) -/

inductive ScliDispatch where
  | skip
  | exitApp
  | help
  | clearMem
  | chatMode
  | configure
  | filesPick
  | emptyQueryWarning
  | llmQuery (q : String)
  | directShell (cmd : String)

/-- One iteration of the `scli.py` main loop, classified by the branch the
(stripped) input takes.  Any input matching no meta-command and not starting
with `scli-command` reaches the final `else: execute_command(user_input)`. -/
def scli_dispatch (raw : String) : ScliDispatch :=
  let user_input := pyStrip raw
  if user_input = "" then ScliDispatch.skip
  else if pyLower user_input = "exit" ∨ pyLower user_input = "scli-exit" then
    ScliDispatch.exitApp
  else if pyLower user_input = "help" ∨ pyLower user_input = "scli" then
    ScliDispatch.help
  else if user_input = "scli-clear" then ScliDispatch.clearMem
  else if pyStartsWith user_input "scli-chat" then ScliDispatch.chatMode
  else if user_input = "scli-configure" then ScliDispatch.configure
  else if user_input = "scli-files" then ScliDispatch.filesPick
  else if pyStartsWith user_input "scli-command" then
    let query := pyStrip (String.mk (user_input.data.drop "scli-command".length))
    if query = "" then ScliDispatch.emptyQueryWarning
    else ScliDispatch.llmQuery query
  else ScliDispatch.directShell user_input

def isQueryDispatch : ScliDispatch → Bool
  | ScliDispatch.llmQuery _ => true
  | _ => false

/-! ## `process_llm_query` (`smartcli/scli.py`)

Oracles: `llm k` is the text of the k-th LLM transport call of the turn
(`get_llm_response` always returns a string; transport errors come back as
error text), `fileAskAnswer` answers the file-selection prompt,
`pickedFiles` is what the selection UI returns, `actionInput` answers the
action menu, `editedInput` is the line returned by the prefilled edit. -/

structure ScliState where
  files : List (String × String)
  history : List Msg

structure ScliQueryOut where
  state : ScliState
  executed : List String
  llmCalls : Nat

def process_llm_query (llm : Nat → String) (fileAskAnswer : String)
    (pickedFiles : List (String × String)) (actionInput : String)
    (editedInput : String) (_shell : String → ShellOutcome)
    (st : ScliState) (_query : String) : ScliQueryOut :=
  let files :=
    if st.files = [] ∧ pyLower (pyStrip fileAskAnswer) = "y" then pickedFiles
    else st.files
  let llm_response := llm 0
  let history1 := st.history ++ [⟨"assistant", llm_response⟩]
  match extract_command_and_response llm_response with
  | none => ⟨⟨files, history1⟩, [], 1⟩
  | some (command, _explanation) =>
    if command = "" then ⟨⟨files, history1⟩, [], 1⟩
    else
      let action := pyStrip (pyLower actionInput)
      if action = "y" then ⟨⟨files, history1⟩, [command], 1⟩
      else if action = "yy" then ⟨⟨files, history1⟩, [command], 2⟩
      else if action = "c" then
        let edited_cmd := pyStrip editedInput
        if edited_cmd ≠ "" then ⟨⟨files, history1⟩, [edited_cmd], 1⟩
        else ⟨⟨files, history1⟩, [], 1⟩
      else ⟨⟨files, history1⟩, [], 1⟩

/-! ## Chat mode (`enter_chat_mode` in `smartcli/scli.py`) -/

structure ChatTurnOut where
  history : List Msg
  llmCalls : Nat
  warned : Bool
  stopped : Bool

/-- One iteration of the chat loop.  When the history exceeds 3500 estimated
tokens the loop prints a warning — and then calls the LLM anyway. -/
def chatTurn (llm : String → String) (history : List Msg) (raw : String) :
    ChatTurnOut :=
  let chat_input := pyStrip raw
  if chat_input = "" then ⟨history, 0, false, false⟩
  else if pyLower chat_input = "exit" ∨ pyLower chat_input = "back" then
    ⟨history, 0, false, true⟩
  else
    let warned := get_total_tokens history > 3500
    let response := llm chat_input
    ⟨history ++ [⟨"user", chat_input⟩, ⟨"assistant", response⟩], 1, warned, false⟩

/-! ## `extract_prompt` (the `*** query ***` marker form)

The pattern is three stars, optional whitespace, a lazy group, optional
whitespace, three stars; with a lazy group and a final `.strip()` this is:
the text between the first `***` and the next `***` after it, stripped.
(Loop inputs come from `input()` and are single lines, so the
DOTALL difference between `2Smartcli/main.py` and `main.py` is inert.) -/

def findSub (needle : List Char) : List Char → Option Nat
  | [] => if needle = [] then some 0 else none
  | c :: cs =>
    if needle.isPrefixOf (c :: cs) then some 0
    else
      match findSub needle cs with
      | some i => some (i + 1)
      | none => none

def extract_prompt (user_input : String) : Option String :=
  let stars : List Char := ['*', '*', '*']
  match findSub stars user_input.data with
  | none => none
  | some i =>
    let afterOpen := user_input.data.drop (i + 3)
    match findSub stars afterOpen with
    | none => none
    | some j => some (pyStrip (String.mk (afterOpen.take j)))

/-! ## One turn of the `2Smartcli/main.py` loop (`CLIAssistant.run`)

Oracles: `llm k` is the k-th transport call of the turn (`get_llm_response`
returns either response text or an error string), `confirm k` the k-th
answer to a `[y/N]` confirmation, `shell` the `run_shell_command`
collaborator.  The result records the new history, how many LLM calls were
made, how many follow-up re-prompt rounds ran, which commands were handed to
`run_shell_command`, and whether the loop stops; `none` models an uncaught
exception escaping the turn (e.g. `validate_command` on a non-string
`pre_command`). -/

inductive LLMResult where
  | ok (text : String)
  | err (msg : String)

structure Turn2Out where
  history : List Msg
  llmCalls : Nat
  followUps : Nat
  executed : List String
  stopped : Bool

def runTurn2 (llm : Nat → LLMResult) (confirm : Nat → String)
    (shell : String → Option String) (history : List Msg) (raw : String) :
    Option Turn2Out :=
  let user_input := pyStrip raw
  if pyLower user_input = "exit" then some ⟨history, 0, 0, [], true⟩
  else if pyLower user_input = "[%clear%]" then some ⟨[], 0, 0, [], false⟩
  else
    match extract_prompt user_input with
    | none => some ⟨history, 0, 0, [], false⟩
    | some query =>
      if query = "" then some ⟨history, 0, 0, [], false⟩
      else if get_total_tokens history > max_tokens then
        some ⟨history, 0, 0, [], false⟩
      else
        let history1 := history ++ [⟨"user", query⟩]
        match llm 0 with
        | LLMResult.err _ => some ⟨history1, 1, 0, [], false⟩
        | LLMResult.ok response =>
          match parse_llm_json response with
          | none => some ⟨history1, 1, 0, [], false⟩
          | some (Json.obj fields) =>
            if pyTruthy (objLookup fields "needs_output") then
              match objLookup fields "pre_command" with
              | some (Json.str pre_cmd) =>
                if ¬ validate_command pre_cmd then
                  some ⟨history1, 1, 0, [], false⟩
                else if pyLower (confirm 0) = "y" then
                  match shell pre_cmd with
                  | none => some ⟨history1, 1, 0, [pre_cmd], false⟩
                  | some _pre_output =>
                    match llm 1 with
                    | LLMResult.err _ => some ⟨history1, 2, 1, [pre_cmd], false⟩
                    | LLMResult.ok fresp =>
                      match parse_llm_json fresp with
                      | some (Json.obj ffields) =>
                        if pyTruthy (objLookup ffields "command") then
                          match objLookup ffields "command" with
                          | some (Json.str fcmd) =>
                            if validate_command fcmd then
                              if pyLower (confirm 1) = "y" then
                                some ⟨history1, 2, 1, [pre_cmd, fcmd], false⟩
                              else some ⟨history1, 2, 1, [pre_cmd], false⟩
                            else some ⟨history1, 2, 1, [pre_cmd], false⟩
                          | _ => none
                        else some ⟨history1, 2, 1, [pre_cmd], false⟩
                      | some _ => none
                      | none => some ⟨history1, 2, 1, [pre_cmd], false⟩
                else some ⟨history1, 1, 0, [], false⟩
              | _ => none
            else if pyTruthy (objLookup fields "command") then
              match objLookup fields "command" with
              | some (Json.str cmd) =>
                if validate_command cmd then
                  if pyLower (confirm 0) = "y" then
                    some ⟨history1, 1, 0, [cmd], false⟩
                  else some ⟨history1, 1, 0, [], false⟩
                else some ⟨history1, 1, 0, [], false⟩
              | _ => none
            else some ⟨history1, 1, 0, [], false⟩
          | some _ => none

/-- Per-turn oracle bundle for the multi-turn loop. -/
structure TurnOracles where
  llm : Nat → LLMResult
  confirm : Nat → String
  shell : String → Option String

/-- The `2Smartcli` loop over a sequence of inputs; returns the final history
and the total number of LLM transport calls.  A crashed turn terminates the
process, an `exit` input breaks the loop. -/
def runLoop2 : List (String × TurnOracles) → List Msg → List Msg × Nat
  | [], h => (h, 0)
  | (raw, o) :: rest, h =>
    match runTurn2 o.llm o.confirm o.shell h raw with
    | none => (h, 0)
    | some out =>
      if out.stopped then (out.history, out.llmCalls)
      else
        let tail := runLoop2 rest out.history
        (tail.1, out.llmCalls + tail.2)

/-! ## The `main.py` loop dispatch -/

inductive MainPyDispatch where
  | exitApp
  | clearMem
  | stateMachineQuery (q : String)
  | directShell (cmd : String)

/-- One iteration of the `main.py` loop, classified: no meta-command and no
`*** query ***` marker falls through to `subprocess.run(user_input,
shell=True)`. -/
def mainpy_dispatch (raw : String) : MainPyDispatch :=
  let user_input := pyStrip raw
  if pyLower user_input = "exit" then MainPyDispatch.exitApp
  else if pyLower user_input = "[%clear%]" then MainPyDispatch.clearMem
  else
    match extract_prompt user_input with
    | some q =>
      if q = "" then MainPyDispatch.directShell user_input
      else MainPyDispatch.stateMachineQuery q
    | none => MainPyDispatch.directShell user_input

def isMainPyQueryDispatch : MainPyDispatch → Bool
  | MainPyDispatch.stateMachineQuery _ => true
  | _ => false

/-! ## Well-formed JSON objects inside raw text

Used to state C1: a well-formed JSON object is a character span that starts
with a left brace and decodes completely; `countJsonObjects` counts the
spans of a text that are such objects. -/

def isJsonObjectChars (cs : List Char) : Bool :=
  match cs with
  | [] => false
  | c :: _ =>
    c = lbrace &&
      match parseVal (2 * cs.length + 4) cs with
      | some (Json.obj _, rest) => rest.isEmpty
      | _ => false

/-- All non-empty contiguous spans of a character list. -/
def allSubstrings (cs : List Char) : List (List Char) :=
  (List.range cs.length).flatMap
    (fun i => (List.range (cs.length - i)).map (fun j => (cs.drop i).take (j + 1)))

def countJsonObjects (s : String) : Nat :=
  (allSubstrings s.data).countP isJsonObjectChars

/-! ## A canonical model reply

`replyList c r` is the JSON object with a `response` field `r` and a
`command` field `c`; `plainChar` restricts the field contents to characters
needing no escaping. -/

def plainChar (c : Char) : Bool :=
  c ≠ '"' && c ≠ '\\' && decide (32 ≤ c.toNat)

def replyMid (c r : List Char) : List Char :=
  '"' :: "response".data ++ '"' :: ':' :: '"' :: r ++
    '"' :: ',' :: '"' :: "command".data ++ '"' :: ':' :: '"' :: c ++ ['"']

def replyList (c r : List Char) : List Char :=
  lbrace :: replyMid c r ++ [rbrace]

def mkReply (c r : String) : String :=
  String.mk (replyList c.data r.data)

/-! ## Concrete instances used by counterexamples and witnesses -/

/-- Raw reply whose one JSON object is followed by prose containing a stray
right brace. -/
def cexRaw : String :=
  "\x7b\"command\":\"c\",\"response\":\"r\"\x7d \x7d"

/-- An over-budget history: 3501 one-word messages. -/
def bigHistory : List Msg := List.replicate 3501 ⟨"user", "w"⟩

/-- A transport stub whose reply carries a valid suggestion. -/
def wLLM : Nat → String :=
  fun _ => "\x7b\"response\": \"r\", \"command\": \"docker ps\"\x7d"

def wShell : String → ShellOutcome :=
  fun _ => ShellOutcome.completed "ok" "" 0

def shellExit0 : String → ShellOutcome :=
  fun _ => ShellOutcome.completed "ok" "" 0

def shellExit1 : String → ShellOutcome :=
  fun _ => ShellOutcome.completed "ok" "" 1

/-- Transport stub for the follow-up scenario: first call asks for output,
second call finalizes a command. -/
def fLLM : Nat → LLMResult
  | 0 => LLMResult.ok "\x7b\"needs_output\": true, \"pre_command\": \"ls\"\x7d"
  | _ => LLMResult.ok "\x7b\"command\": \"docker ps\", \"response\": \"r\"\x7d"

def yesConfirm : Nat → String := fun _ => "y"

def noConfirm : Nat → String := fun _ => "n"

def okShell : String → Option String := fun _ => some "out"

def stubOracles : TurnOracles := ⟨fLLM, yesConfirm, okShell⟩

/-- The per-turn gate property of a `2Smartcli` turn result: at most one
follow-up round, at most two LLM calls, and nothing executed unless the
first confirmation lowercases to "y". -/
def turn2Gates (confirm : Nat → String) : Option Turn2Out → Prop
  | none => True
  | some out =>
    out.followUps ≤ 1 ∧ out.llmCalls ≤ 2 ∧
      (out.executed ≠ [] → pyLower (confirm 0) = "y")

/-! # Theorems -/

/-- The over-budget history really estimates to 3501 tokens. -/
lemma get_total_tokens_bigHistory : get_total_tokens bigHistory = 3501 := by
  have h : wordCount "w" = 1 := rfl
  rw [bigHistory, get_total_tokens, List.map_replicate, List.sum_replicate, smul_eq_mul, h]

/-! ## C5 — allow-list semantics -/

/-- Claim C5 as stated is false: with an empty allow-list the validator
returns `false` for `"docker ps"` (and indeed for every command), where the
claim requires `true`. -/
theorem C5_counterexample : ¬ (isAllowed "docker ps" [] = true) := by decide

/-- Claim C5 (amended): the validator returns false for every command when
the allow-list is empty (an empty allow-list blocks everything — `any` over
an empty list is false — rather than meaning "no restriction"); it returns
true for "docker ps" against the allow-list ["docker"] and false for
"rm -rf /" against ["docker"]. -/
theorem C5_empty_allowlist_blocks :
    (∀ cmd : String, isAllowed cmd [] = false) ∧
    isAllowed "docker ps" ["docker"] = true ∧
    isAllowed "rm -rf /" ["docker"] = false :=
  ⟨fun _ => rfl, rfl, rfl⟩

/-! ## C9 — the validator is a raw prefix test -/

/-- Claim C9: the validator does a raw string prefix test, not a first-token
match: any command whose text begins with an allow-listed name passes; in
particular "lsblk" passes `validate_command` although its first
whitespace-delimited token differs from the allow-listed "ls". -/
theorem C9_validator_raw_string_test :
    (∀ (allowList : List String) (a cmd : String),
        a ∈ allowList → pyStartsWith cmd a = true → isAllowed cmd allowList = true) ∧
    validate_command "lsblk" = true ∧
    "ls" ∈ allowed_commands ∧
    firstToken "lsblk" ≠ "ls" := by
  refine ⟨?_, rfl, by decide, by decide⟩
  intro allowList a cmd hmem hstart
  exact List.any_eq_true.mpr ⟨a, hmem, hstart⟩

theorem C9_witness : isAllowed "lsblk" ["ls"] = true :=
  C9_validator_raw_string_test.1 ["ls"] "ls" "lsblk" (by decide) (by decide)

/-! ## C2 — unmatched input is executed, not queried -/

/-- Claim C2 as stated is false: the input "show me the files" matches no
meta-command and is no command request, yet neither loop routes it into the
state machine — both execute it directly as a shell command. -/
theorem C2_counterexample :
    isQueryDispatch (scli_dispatch "show me the files") = false ∧
    scli_dispatch "show me the files" = ScliDispatch.directShell "show me the files" ∧
    isMainPyQueryDispatch (mainpy_dispatch "show me the files") = false ∧
    mainpy_dispatch "show me the files" = MainPyDispatch.directShell "show me the files" :=
  ⟨rfl, rfl, rfl, rfl⟩

/-- Claim C2 (amended): any input matching no recognized meta-command and no
command-request form (`scli-command …` in scli, `*** … ***` in main.py) is
executed directly as a shell command — queries enter the state machine only
through the explicit command-request form. -/
theorem C2_unmatched_input_is_direct_shell :
    (∀ raw : String,
      pyStrip raw ≠ "" →
      pyLower (pyStrip raw) ≠ "exit" → pyLower (pyStrip raw) ≠ "scli-exit" →
      pyLower (pyStrip raw) ≠ "help" → pyLower (pyStrip raw) ≠ "scli" →
      pyStrip raw ≠ "scli-clear" →
      pyStartsWith (pyStrip raw) "scli-chat" = false →
      pyStrip raw ≠ "scli-configure" → pyStrip raw ≠ "scli-files" →
      pyStartsWith (pyStrip raw) "scli-command" = false →
      scli_dispatch raw = ScliDispatch.directShell (pyStrip raw)) ∧
    (∀ raw : String,
      pyLower (pyStrip raw) ≠ "exit" → pyLower (pyStrip raw) ≠ "[%clear%]" →
      extract_prompt (pyStrip raw) = none →
      mainpy_dispatch raw = MainPyDispatch.directShell (pyStrip raw)) := by
  constructor
  · intro raw h1 h2 h3 h4 h5 h6 h7 h8 h9 h10
    simp only [scli_dispatch]
    rw [if_neg h1, if_neg (not_or.mpr ⟨h2, h3⟩), if_neg (not_or.mpr ⟨h4, h5⟩),
      if_neg h6, if_neg (by simp [h7]), if_neg h8, if_neg h9, if_neg (by simp [h10])]
  · intro raw h1 h2 hq
    simp only [mainpy_dispatch]
    rw [if_neg h1, if_neg h2, hq]

theorem C2_witness :
    scli_dispatch "make me a sandwich" = ScliDispatch.directShell "make me a sandwich" ∧
    mainpy_dispatch "make me a sandwich" = MainPyDispatch.directShell "make me a sandwich" :=
  ⟨C2_unmatched_input_is_direct_shell.1 "make me a sandwich" (by decide) (by decide)
      (by decide) (by decide) (by decide) (by decide) (by decide) (by decide) (by decide)
      (by decide),
    C2_unmatched_input_is_direct_shell.2 "make me a sandwich" (by decide) (by decide) rfl⟩

/-! ## C4 — parse failures are typed results -/

/-- Claim C4: when the brace regex finds no span (absent/mis-ordered braces)
or the extracted span is not decodable JSON, both parsers return their typed
no-command failure value (`None`); being total functions into `Option`, they
propagate no exception. -/
theorem C4_parse_failures_are_typed (raw : String) :
    (re_search_brace_dotall raw = none →
      extract_command_and_response raw = none ∧ parse_llm_json raw = none) ∧
    (∀ m, re_search_brace_dotall raw = some m → json_loads m = none →
      extract_command_and_response raw = none ∧ parse_llm_json raw = none) := by
  constructor
  · intro h
    constructor <;> simp [extract_command_and_response, parse_llm_json, h]
  · intro m hm hj
    constructor <;> simp [extract_command_and_response, parse_llm_json, hm, hj]

theorem C4_witness :
    (extract_command_and_response "no braces here" = none ∧
      parse_llm_json "no braces here" = none) ∧
    (extract_command_and_response "\x7b\x7b\x7d" = none ∧
      parse_llm_json "\x7b\x7b\x7d" = none) :=
  ⟨(C4_parse_failures_are_typed "no braces here").1 rfl,
    (C4_parse_failures_are_typed "\x7b\x7b\x7d").2 "\x7b\x7b\x7d" rfl rfl⟩

/-! ## C6 — execution results -/

/-- Claim C6 as stated is false in one point: the exit status is not
reported in the returned result.  `execute_command` returns only the pair
(stdout, stderr), so no reading of the result can recover the exit code:
two runs differing only in exit status produce identical results. -/
theorem C6_counterexample :
    ¬ ∃ report : String × String → Int,
        ∀ (shell : String → ShellOutcome) (cmd out err : String) (code : Int),
          shell cmd = ShellOutcome.completed out err code →
          report (execute_command shell cmd) = code := by
  rintro ⟨report, hrep⟩
  have h0 := hrep shellExit0 "x" "ok" "" 0 rfl
  have h1 := hrep shellExit1 "x" "ok" "" 1 rfl
  have heq : execute_command shellExit0 "x" = execute_command shellExit1 "x" := rfl
  rw [heq] at h0
  rw [h0] at h1
  exact absurd h1 (by decide)

/-- Claim C6 (amended): execution never propagates an exception to the
caller and captures the two streams separately, but the exit status is not
part of the returned result: `execute_command` (scli, `check=False`) returns
the stripped (stdout, stderr) pair whatever the exit code, and `("", msg)`
on a launch failure; `run_shell_command` (2Smartcli, `check=True` and
`shell=False`) returns the stripped stdout on exit 0 and `None` on a
non-zero exit or launch failure. -/
theorem C6_execution_is_typed (shell : String → ShellOutcome) (cmd : String) :
    (∀ out err code, shell cmd = ShellOutcome.completed out err code →
      execute_command shell cmd = (pyStrip out, pyStrip err) ∧
      run_shell_command shell cmd = (if code = 0 then some (pyStrip out) else none)) ∧
    (∀ msg, shell cmd = ShellOutcome.launchError msg →
      execute_command shell cmd = ("", msg) ∧ run_shell_command shell cmd = none) := by
  constructor
  · intro out err code h
    constructor <;> simp [execute_command, run_shell_command, h]
  · intro msg h
    constructor <;> simp [execute_command, run_shell_command, h]

theorem C6_witness :
    execute_command shellExit1 "x" = ("ok", "") ∧
    run_shell_command shellExit1 "x" = none := by
  have h := (C6_execution_is_typed shellExit1 "x").1 "ok" "" 1 rfl
  exact ⟨h.1, by rw [h.2]; rfl⟩

/-! ## Structure of a `2Smartcli` turn -/

lemma runTurn2_gatesAux (llm : Nat → LLMResult) (confirm : Nat → String)
    (shell : String → Option String) (h : List Msg) (raw : String) :
    turn2Gates confirm (runTurn2 llm confirm shell h raw) := by
  simp only [runTurn2]
  by_cases h1 : pyLower (pyStrip raw) = "exit"
  · rw [if_pos h1]
    exact ⟨by simp, by simp, fun hne => absurd rfl hne⟩
  · rw [if_neg h1]
    by_cases h2 : pyLower (pyStrip raw) = "[%clear%]"
    · rw [if_pos h2]
      exact ⟨by simp, by simp, fun hne => absurd rfl hne⟩
    · rw [if_neg h2]
      cases h3 : extract_prompt (pyStrip raw) with
      | none => exact ⟨by simp, by simp, fun hne => absurd rfl hne⟩
      | some query =>
        repeat' split
        all_goals simp only [turn2Gates]
        all_goals first
          | trivial
          | exact ⟨by simp, by simp, fun hne => by
              first
                | exact absurd rfl hne
                | assumption⟩

/-- Every successful `2Smartcli` turn runs at most one follow-up round and
at most two LLM calls, and runs no command at all unless the first
confirmation answer lowercases to exactly "y". -/
lemma runTurn2_gates (llm : Nat → LLMResult) (confirm : Nat → String)
    (shell : String → Option String) (h : List Msg) (raw : String)
    (out : Turn2Out) (hrun : runTurn2 llm confirm shell h raw = some out) :
    out.followUps ≤ 1 ∧ out.llmCalls ≤ 2 ∧
      (out.executed ≠ [] → pyLower (confirm 0) = "y") := by
  have haux := runTurn2_gatesAux llm confirm shell h raw
  rw [hrun] at haux
  exact haux

/-- An over-budget, non-clearing turn issues no LLM call, executes nothing
and leaves the history unchanged. -/
lemma runTurn2_over_budget (llm : Nat → LLMResult) (confirm : Nat → String)
    (shell : String → Option String) (h : List Msg) (raw : String)
    (hov : get_total_tokens h > max_tokens)
    (hnc : pyLower (pyStrip raw) ≠ "[%clear%]") :
    ∃ stopFlag, runTurn2 llm confirm shell h raw = some ⟨h, 0, 0, [], stopFlag⟩ := by
  by_cases hexit : pyLower (pyStrip raw) = "exit"
  · exact ⟨true, by simp only [runTurn2, hexit]; rfl⟩
  · cases hq : extract_prompt (pyStrip raw) with
    | none =>
      refine ⟨false, ?_⟩
      simp only [runTurn2, if_neg hexit, if_neg hnc, hq]
    | some q =>
      refine ⟨false, ?_⟩
      by_cases hq0 : q = ""
      · simp only [runTurn2, if_neg hexit, if_neg hnc, hq, if_pos hq0]
      · simp only [runTurn2, if_neg hexit, if_neg hnc, hq, if_neg hq0, if_pos hov]

/-! ## C3 — the token budget gate -/

/-- Claim C3 as stated is false for the scli flows: with a history already
over the 3500-token budget, a chat turn still issues the LLM call (the code
only prints a warning), and `process_llm_query` issues its LLM call with no
budget check at all. -/
theorem C3_counterexample :
    get_total_tokens bigHistory > max_tokens ∧
    (chatTurn (fun _ => "reply") bigHistory "hi").llmCalls = 1 ∧
    (process_llm_query wLLM "n" [] "n" "" wShell ⟨[], bigHistory⟩ "q").llmCalls = 1 := by
  refine ⟨?_, rfl, rfl⟩
  rw [get_total_tokens_bigHistory, max_tokens]
  decide

/-- Claim C3 (amended): the over-budget gate exists only in the
`2Smartcli/main.py` loop: there, once the estimated token count exceeds
3500, every turn up to the next `[%clear%]` issues no LLM call and leaves
the history unchanged.  The scli flows have no such gate (see the
counterexample). -/
theorem C3_budget_gate_in_2smartcli (turns : List (String × TurnOracles))
    (h : List Msg) (hov : get_total_tokens h > max_tokens)
    (hnc : ∀ p ∈ turns, pyLower (pyStrip p.1) ≠ "[%clear%]") :
    runLoop2 turns h = (h, 0) := by
  induction turns with
  | nil => rfl
  | cons p rest ih =>
    obtain ⟨raw, o⟩ := p
    obtain ⟨flag, hrun⟩ :=
      runTurn2_over_budget o.llm o.confirm o.shell h raw hov
        (hnc ⟨raw, o⟩ (List.mem_cons_self _ _))
    simp only [runLoop2, hrun]
    cases flag
    · simp only [Bool.false_eq_true, if_false]
      rw [ih (fun q hq => hnc q (List.mem_cons_of_mem _ hq))]
      rfl
    · rfl

theorem C3_witness :
    runLoop2 [("*** q ***", stubOracles), ("hello", stubOracles)] bigHistory =
      (bigHistory, 0) := by
  refine C3_budget_gate_in_2smartcli _ _ ?_ ?_
  · rw [get_total_tokens_bigHistory, max_tokens]; decide
  · intro p hp
    simp only [List.mem_cons, List.mem_singleton] at hp
    rcases hp with h1 | h1 | h1
    · rw [h1]; decide
    · rw [h1]; decide
    · cases h1

/-! ## C7 — at most one follow-up round per query -/

/-- Claim C7: a `2Smartcli` turn performs at most one follow-up round (one
`pre_command` execution followed by one re-prompt) and hence at most two LLM
calls; the straight-line code never loops back into a second follow-up for
the same query. -/
theorem C7_at_most_one_follow_up_round (llm : Nat → LLMResult)
    (confirm : Nat → String) (shell : String → Option String) (h : List Msg)
    (raw : String) (out : Turn2Out)
    (hrun : runTurn2 llm confirm shell h raw = some out) :
    out.followUps ≤ 1 ∧ out.llmCalls ≤ 2 :=
  ⟨(runTurn2_gates llm confirm shell h raw out hrun).1,
    (runTurn2_gates llm confirm shell h raw out hrun).2.1⟩

theorem C7_witness :
    (Turn2Out.mk [⟨"user", "q"⟩] 2 1 ["ls", "docker ps"] false).followUps ≤ 1 ∧
    (Turn2Out.mk [⟨"user", "q"⟩] 2 1 ["ls", "docker ps"] false).llmCalls ≤ 2 :=
  C7_at_most_one_follow_up_round fLLM yesConfirm okShell [] "*** q ***" _ rfl

/-! ## C8 — empty edit degrades to skip -/

/-- Claim C8: when the user picks the edit action (`c`) and the edited line
strips to the empty string, nothing is executed (and the total function
raises nothing). -/
theorem C8_empty_edit_skips (llm : Nat → String) (fileAskAnswer : String)
    (pickedFiles : List (String × String)) (actionInput editedInput : String)
    (shell : String → ShellOutcome) (st : ScliState) (q : String)
    (hact : pyStrip (pyLower actionInput) = "c")
    (hedit : pyStrip editedInput = "") :
    (process_llm_query llm fileAskAnswer pickedFiles actionInput editedInput
      shell st q).executed = [] := by
  cases hE : extract_command_and_response (llm 0) with
  | none => simp [process_llm_query, hE]
  | some p =>
    obtain ⟨command, expl⟩ := p
    by_cases hcmd : command = ""
    · simp [process_llm_query, hE, hcmd]
    · simp [process_llm_query, hE, hcmd, hact, hedit]

theorem C8_witness :
    (process_llm_query wLLM "n" [] " C " "   " wShell ⟨[], []⟩ "q").executed = [] ∧
    extract_command_and_response (wLLM 0) = some ("docker ps", "r") :=
  ⟨C8_empty_edit_skips wLLM "n" [] " C " "   " wShell ⟨[], []⟩ "q" rfl rfl, rfl⟩

/-! ## C10 — the confirmation gate is default-deny -/

/-- Claim C10: in scli, any action answer whose lowercased-stripped form is
not exactly "y", "yy" or "c" leads to no execution; in 2Smartcli, if no
confirmation answer has such a form then the turn executes nothing — so only
those inputs can lead to an execution. -/
theorem C10_confirmation_default_deny :
    (∀ (llm : Nat → String) (fileAskAnswer : String)
        (pickedFiles : List (String × String)) (actionInput editedInput : String)
        (shell : String → ShellOutcome) (st : ScliState) (q : String),
      pyStrip (pyLower actionInput) ≠ "y" →
      pyStrip (pyLower actionInput) ≠ "yy" →
      pyStrip (pyLower actionInput) ≠ "c" →
      (process_llm_query llm fileAskAnswer pickedFiles actionInput editedInput
        shell st q).executed = []) ∧
    (∀ (llm : Nat → LLMResult) (confirm : Nat → String)
        (shell : String → Option String) (h : List Msg) (raw : String)
        (out : Turn2Out),
      runTurn2 llm confirm shell h raw = some out →
      (∀ k, pyStrip (pyLower (confirm k)) ≠ "y" ∧
        pyStrip (pyLower (confirm k)) ≠ "yy" ∧ pyStrip (pyLower (confirm k)) ≠ "c") →
      out.executed = []) := by
  constructor
  · intro llm fa pf actionInput editedInput shell st q h1 h2 h3
    cases hE : extract_command_and_response (llm 0) with
    | none => simp [process_llm_query, hE]
    | some p =>
      obtain ⟨command, expl⟩ := p
      by_cases hcmd : command = ""
      · simp [process_llm_query, hE, hcmd]
      · simp [process_llm_query, hE, hcmd, h1, h2, h3]
  · intro llm confirm shell h raw out hrun hk
    have hy0 : pyLower (confirm 0) ≠ "y" := by
      intro he
      exact (hk 0).1 (by rw [he]; decide)
    by_contra hne
    exact hy0 ((runTurn2_gates llm confirm shell h raw out hrun).2.2 hne)

theorem C10_witness :
    (process_llm_query wLLM "n" [] " No " "x" wShell ⟨[], []⟩ "q").executed = [] ∧
    (Turn2Out.mk [⟨"user", "q"⟩] 1 0 [] false).executed = [] :=
  ⟨C10_confirmation_default_deny.1 wLLM "n" [] " No " "x" wShell ⟨[], []⟩ "q"
      (by decide) (by decide) (by decide),
    C10_confirmation_default_deny.2 fLLM noConfirm okShell [] "*** q ***" _ rfl
      (fun k => by simp only [noConfirm]; exact ⟨by decide, by decide, by decide⟩)⟩

/-! ## C1 — JSON extraction from a raw reply

The parser runs a greedy regex from the first left brace to the last right
brace, not a balanced-brace scan.  The lemmas below compute the parse of the
canonical reply object and the regex span around it. -/

lemma skipWs_cons_not (c : Char) (cs : List Char) (h : isJsonWs c = false) :
    skipWs (c :: cs) = c :: cs := by
  simp [skipWs, h]

lemma plainChar_spec {c : Char} (h : plainChar c = true) :
    ¬ c = '"' ∧ ¬ c = '\\' ∧ ¬ c.toNat < 32 := by
  simp only [plainChar, Bool.and_eq_true, decide_eq_true_eq] at h
  exact ⟨h.1.1, h.1.2, by omega⟩

/-- A quote-terminated run of plain characters decodes to itself. -/
lemma parseStringBody_plain (content rest : List Char)
    (h : content.all plainChar = true) :
    ∀ fuel, content.length + 1 ≤ fuel →
      parseStringBody fuel (content ++ '"' :: rest) = some (content, rest) := by
  induction content with
  | nil =>
    intro fuel hf
    cases fuel with
    | zero => omega
    | succ f => simp [parseStringBody]
  | cons c cs ih =>
    intro fuel hf
    cases fuel with
    | zero => omega
    | succ f =>
      simp only [List.all_cons, Bool.and_eq_true] at h
      obtain ⟨h1, h2, h3⟩ := plainChar_spec h.1
      simp only [List.cons_append, parseStringBody]
      rw [if_neg h1, if_neg h2, if_neg h3, ih h.2 f (by simp at hf ⊢; omega)]

/-- A quoted string literal of plain characters parses as a JSON string. -/
lemma parseVal_string (content rest : List Char)
    (h : content.all plainChar = true) (f : Nat) :
    parseVal (f + 1) ('"' :: (content ++ '"' :: rest)) =
      some (Json.str (String.mk content), rest) := by
  have hb := parseStringBody_plain content rest h ((content ++ '"' :: rest).length + 1)
    (by simp only [List.length_append, List.length_cons]; omega)
  show (match parseStringBody ((content ++ '"' :: rest).length + 1) (content ++ '"' :: rest) with
    | some (s, r) => some (Json.str (String.mk s), r)
    | none => none) = some (Json.str (String.mk content), rest)
  rw [hb]

/-- One object member followed by a comma and further members. -/
lemma parseMembers_cons (key valRest more : List Char) (v : Json)
    (ms : List (String × Json)) (tail : List Char) (g : Nat)
    (hkey : key.all plainChar = true)
    (hval : parseVal g valRest = some (v, ',' :: more))
    (hmore : parseMembers g more = some (ms, tail)) :
    parseMembers (g + 1) ('"' :: (key ++ '"' :: ':' :: valRest)) =
      some ((String.mk key, v) :: ms, tail) := by
  have hk := parseStringBody_plain key (':' :: valRest) hkey
    ((key ++ '"' :: ':' :: valRest).length + 1)
    (by simp only [List.length_append, List.length_cons]; omega)
  simp only [parseMembers]
  rw [skipWs_cons_not '"' _ rfl]
  dsimp only
  rw [if_pos rfl, hk]
  dsimp only
  rw [skipWs_cons_not ':' _ rfl]
  dsimp only
  rw [if_pos rfl, hval]
  dsimp only
  rw [skipWs_cons_not ',' _ rfl]
  dsimp only
  rw [if_pos rfl, hmore]

/-- The final object member, terminated by the closing brace. -/
lemma parseMembers_last (key valRest tail2 : List Char) (v : Json) (g : Nat)
    (hkey : key.all plainChar = true)
    (hval : parseVal g valRest = some (v, rbrace :: tail2)) :
    parseMembers (g + 1) ('"' :: (key ++ '"' :: ':' :: valRest)) =
      some ([(String.mk key, v)], tail2) := by
  have hk := parseStringBody_plain key (':' :: valRest) hkey
    ((key ++ '"' :: ':' :: valRest).length + 1)
    (by simp only [List.length_append, List.length_cons]; omega)
  simp only [parseMembers]
  rw [skipWs_cons_not '"' _ rfl]
  dsimp only
  rw [if_pos rfl, hk]
  dsimp only
  rw [skipWs_cons_not ':' _ rfl]
  dsimp only
  rw [if_pos rfl, hval]
  dsimp only
  rw [skipWs_cons_not rbrace _ rfl]
  dsimp only
  rw [if_neg (by decide), if_pos rfl]

/-- The canonical reply object parses to its two fields. -/
lemma parseVal_replyList (c r : List Char) (hc : c.all plainChar = true)
    (hr : r.all plainChar = true) (f : Nat) :
    parseVal (f + 1 + 1 + 1 + 1) (replyList c r) =
      some (Json.obj [("response", Json.str (String.mk r)),
                      ("command", Json.str (String.mk c))], []) := by
  have hv2 := parseVal_string c [rbrace] hc f
  have hm2 := parseMembers_last "command".data ('"' :: (c ++ '"' :: [rbrace])) [] (Json.str (String.mk c))
    (f + 1) (by decide) hv2
  have hv1 := parseVal_string r
    (',' :: '"' :: ("command".data ++ '"' :: ':' :: '"' :: (c ++ '"' :: [rbrace]))) hr (f + 1)
  have hm1 := parseMembers_cons "response".data
    ('"' :: (r ++ '"' :: ',' :: '"' :: ("command".data ++ '"' :: ':' :: '"' :: (c ++ '"' :: [rbrace]))))
    ('"' :: ("command".data ++ '"' :: ':' :: '"' :: (c ++ '"' :: [rbrace])))
    (Json.str (String.mk r)) [(String.mk "command".data, Json.str (String.mk c))] []
    (f + 1 + 1) (by decide) ?hv ?hm
  case hv =>
    exact hv1
  case hm =>
    exact hm2
  simp only [replyList, replyMid, List.cons_append, List.append_assoc, List.singleton_append,
    List.nil_append, parseVal]
  rw [skipWs_cons_not lbrace _ rfl]
  dsimp only
  rw [if_neg (by decide), if_pos rfl]
  rw [skipWs_cons_not '"' _ rfl]
  dsimp only
  rw [if_neg (by decide)]
  simp only [List.cons_append, List.append_assoc, List.singleton_append, List.nil_append] at hm1
  rw [hm1]

/-- `json.loads` on the canonical reply text. -/
lemma json_loads_mkReply (c r : String) (hc : c.data.all plainChar = true)
    (hr : r.data.all plainChar = true) :
    json_loads (mkReply c r) =
      some (Json.obj [("response", Json.str r), ("command", Json.str c)]) := by
  have hp := parseVal_replyList c.data r.data hc hr (2 * (mkReply c r).length)
  show (match parseVal (2 * (mkReply c r).length + 1 + 1 + 1 + 1) (replyList c.data r.data) with
    | some (v, rest) => if skipWs rest = [] then some v else none
    | none => none) = some (Json.obj [("response", Json.str r), ("command", Json.str c)])
  rw [hp]
  rfl

/-- The first index of a character sandwiched after a clean run. -/
lemma firstIdxOf_append_of_not_mem (ch : Char) (pre tail : List Char) (h : ch ∉ pre) :
    firstIdxOf ch (pre ++ ch :: tail) = some pre.length := by
  induction pre with
  | nil => simp [firstIdxOf]
  | cons p ps ih =>
    simp only [List.mem_cons, not_or] at h
    simp only [List.cons_append, firstIdxOf, List.append_eq]
    rw [if_neg (fun he => h.1 he.symm), ih h.2]
    simp

/-- The last index of a character followed only by a clean run. -/
lemma lastIdxOf_concat (ch : Char) (init suf : List Char) (h : ch ∉ suf) :
    lastIdxOf ch (init ++ ch :: suf) = some init.length := by
  unfold lastIdxOf
  rw [show (init ++ ch :: suf).reverse = suf.reverse ++ ch :: init.reverse from by simp]
  rw [firstIdxOf_append_of_not_mem ch suf.reverse init.reverse (by simpa using h)]
  simp only [Option.some.injEq, List.length_append, List.length_cons, List.length_reverse]
  omega

/-- The greedy DOTALL brace regex matches exactly the brace-delimited span
when the preceding text has no left brace and the following text no right
brace. -/
lemma re_search_span (pre mid suf : List Char)
    (hpre : lbrace ∉ pre) (hsuf : rbrace ∉ suf) :
    re_search_brace_dotall (String.mk (pre ++ lbrace :: (mid ++ rbrace :: suf))) =
      some (String.mk (lbrace :: (mid ++ [rbrace]))) := by
  have h1 := firstIdxOf_append_of_not_mem lbrace pre (mid ++ rbrace :: suf) hpre
  have h2 : lastIdxOf rbrace (pre ++ lbrace :: (mid ++ rbrace :: suf)) =
      some (pre.length + mid.length + 1) := by
    rw [show pre ++ lbrace :: (mid ++ rbrace :: suf) = (pre ++ lbrace :: mid) ++ rbrace :: suf
      from by simp]
    rw [lastIdxOf_concat rbrace (pre ++ lbrace :: mid) suf hsuf]
    simp only [Option.some.injEq, List.length_append, List.length_cons]
    omega
  simp only [re_search_brace_dotall]
  rw [h1, h2]
  dsimp only
  rw [if_pos (by omega)]
  rw [List.drop_left pre (lbrace :: (mid ++ rbrace :: suf))]
  rw [show pre.length + mid.length + 1 + 1 - pre.length = mid.length + 1 + 1 from by omega]
  rw [List.take_succ_cons, List.take_append_eq_append_take,
    List.take_of_length_le (by omega), show mid.length + 1 - mid.length = 0 + 1 from by omega,
    List.take_succ_cons, List.take_zero]

set_option maxRecDepth 8000 in
/-- Claim C1 as stated is false: `cexRaw` contains exactly one well-formed
JSON object (with `command` and `response` fields) inside surrounding prose,
yet both parsers fail on it — the greedy regex spans from the first left
brace to the stray last right brace of the prose, and that span is not
decodable JSON. -/
theorem C1_counterexample :
    countJsonObjects cexRaw = 1 ∧
    extract_command_and_response cexRaw = none ∧
    parse_llm_json cexRaw = none := by
  refine ⟨by decide, rfl, rfl⟩

/-- Claim C1 (amended): the parsers return the embedded object's fields when
the span from the reply's first left brace to its last right brace is the
object itself — e.g. whenever the prose before the object contains no left
brace and the prose after it no right brace.  The scli parser additionally
whitespace-strips the two returned fields. -/
theorem C1_greedy_span_parses (pre suf c r : String)
    (hpre : lbrace ∉ pre.data) (hsuf : rbrace ∉ suf.data)
    (hc : c.data.all plainChar = true) (hr : r.data.all plainChar = true) :
    extract_command_and_response (pre ++ mkReply c r ++ suf) =
      some (pyStrip c, pyStrip r) ∧
    parse_llm_json (pre ++ mkReply c r ++ suf) =
      some (Json.obj [("response", Json.str r), ("command", Json.str c)]) := by
  have hdata : (pre ++ mkReply c r ++ suf).data =
      pre.data ++ lbrace :: (replyMid c.data r.data ++ rbrace :: suf.data) := by
    rw [String.data_append, String.data_append]
    simp [mkReply, replyList, List.append_assoc]
  have hstr : (pre ++ mkReply c r ++ suf) =
      String.mk (pre.data ++ lbrace :: (replyMid c.data r.data ++ rbrace :: suf.data)) :=
    congrArg String.mk hdata
  have hsearch : re_search_brace_dotall (pre ++ mkReply c r ++ suf) = some (mkReply c r) := by
    rw [hstr]
    exact re_search_span pre.data (replyMid c.data r.data) suf.data hpre hsuf
  have hload := json_loads_mkReply c r hc hr
  constructor
  · unfold extract_command_and_response
    rw [hsearch]
    dsimp only
    rw [hload]
    rfl
  · unfold parse_llm_json
    rw [hsearch]
    dsimp only
    rw [hload]

theorem C1_witness :
    extract_command_and_response ("Sure: " ++ mkReply "docker ps" "Lists containers" ++ " done.") =
      some ("docker ps", "Lists containers") ∧
    parse_llm_json ("Sure: " ++ mkReply "docker ps" "Lists containers" ++ " done.") =
      some (Json.obj [("response", Json.str "Lists containers"),
                      ("command", Json.str "docker ps")]) :=
  C1_greedy_span_parses "Sure: " " done." "docker ps" "Lists containers"
    (by decide) (by decide) (by decide) (by decide)

end SmartCLI
